import Mathlib

/-!
Verification of the voice-ai repository's core components against its
natural-language specification.

The development shallowly embeds, in Lean, the parts of the Python source
that the specification's claims are about:

* `audio_utils.py` — the per-sample G.711 μ-law encode/decode arithmetic
  (`_mulaw_encode` / `_mulaw_decode`), with NumPy int32 arithmetic modelled
  on `Int`/`Nat` (no value in these functions ever leaves the int32 range,
  and the final `astype(np.int16)` casts are value-preserving because the
  decoder's output magnitude is at most 32124).
* `api/routes/voice_ws.py` — the `incoming_call` webhook handler, the
  wait-for-start loop of `twilio_websocket`, and the outbound-media
  behaviour of `TwilioVoiceSession` (greeting plus turn replies), with the
  external STT/TTS services abstracted as oracles.
* `services/voice_session.py` — the `VoiceSession` orchestrator: the
  Update-event interrupt gate of `on_stt_message`, `_handle_interrupt`,
  and the session state machine (state, speak-epoch, conversation id,
  TTS-task reference) as a step function over handler-atomic events;
  and the `tts_runner` sentence-chunking loop including a faithful model
  of the three regular expressions it uses.

Python strings are modelled as `List Char`; Python's truthiness test on
strings and `str.strip()` are modelled explicitly.  Recursions whose
Python counterpart is a `while` loop are given fuel equal to the buffer
length, which provably suffices because every iteration consumes at
least one character.
-/

namespace VoiceAI

/-! ## Python string primitives -/

/-- Whitespace as matched by Python's `str.strip()` and `\s` for the ASCII
range: space, tab, newline, carriage return, vertical tab, form feed. -/
def isPyWs (c : Char) : Bool :=
  c = ' ' || c = '\t' || c = '\n' || c = '\r' || c = '\x0b' || c = '\x0c'

/-- Python `str.strip()`: drop leading and trailing whitespace. -/
def pyStrip (cs : List Char) : List Char :=
  ((cs.dropWhile isPyWs).reverse.dropWhile isPyWs).reverse

/-- Python truthiness of an optional string: `None` and `""` are falsy. -/
def pyTruthy : Option String → Bool
  | none => false
  | some s => !s.isEmpty

/-- Python `needle in hay` substring test on character lists. -/
def listContains : List Char → List Char → Bool
  | n, [] => n.isEmpty
  | n, c :: t => n.isPrefixOf (c :: t) || listContains n t

/-! ## μ-law codec (`audio_utils.py`)

`_mulaw_encode` processes each int16 sample independently: take the sign,
the absolute value, add the bias 33, clip to 32767, locate the exponent as
the highest `i ∈ [0,7]` with `value ≥ 2^(i+7)` (via a descending loop that
only writes the exponent while it is still 0), extract a 4-bit mantissa,
assemble `sign|exponent|mantissa` and invert the bits.

`_mulaw_decode` inverts the bits, splits `sign/exponent/mantissa` and
reconstructs `((mantissa<<3) + 0x84) << exponent − 0x84`, negated when the
sign bit is set. -/

/-- The encoder's exponent search: `for i in range(7, -1, -1): mask = pcm >= (1 << (i + 7)); exponent = where(mask & (exponent == 0), i, exponent)`. -/
def findExpLoop : List Nat → Nat → Nat → Nat
  | [], _, e => e
  | i :: is, y, e =>
    findExpLoop is y (if (1 <<< (i + 7)) ≤ y ∧ e = 0 then i else e)

/-- Exponent of a biased, clipped magnitude, exactly as the NumPy loop
computes it (descending from 7 to 0, first hit wins). -/
def findExp (y : Nat) : Nat := findExpLoop [7, 6, 5, 4, 3, 2, 1, 0] y 0

/-- One sample of `_mulaw_encode`: int16 sample to μ-law byte. -/
def mulawEncode (x : Int) : Nat :=
  let sign : Nat := if x < 0 then 1 else 0
  let y : Nat := min (x.natAbs + 33) 32767
  let e : Nat := findExp y
  let m : Nat := (y >>> (e + 3)) &&& 15
  let mu : Nat := (sign <<< 7) ||| (e <<< 4) ||| m
  mu ^^^ 255

/-- One sample of `_mulaw_decode`: μ-law byte to linear PCM value. -/
def mulawDecode (b : Nat) : Int :=
  let u : Nat := (b ^^^ 255) &&& 255
  let sign : Nat := (u &&& 128) >>> 7
  let e : Nat := (u &&& 112) >>> 4
  let m : Nat := u &&& 15
  let lin : Int := (((((m <<< 3) + 132) <<< e : Nat) : Int)) - 132
  if sign = 0 then lin else -lin

/-- Round trip of one PCM sample through the encoder and decoder, with no
resampling on either side (the rate-8000 path of the claim applies the
per-sample codec to every sample independently). -/
def mulawRoundtrip (x : Int) : Int := mulawDecode (mulawEncode x)

/-! ## Incoming-call webhook (`voice_ws.py`, `incoming_call`)

The handler reads `request.headers.get("host")`, which is `None` when the
request carries no Host header.  The very next expression evaluates
`"ngrok" in host`; on `None` this raises `TypeError` before the `or` can
short-circuit, so the handler errors out instead of responding.  With a
host present it always returns the TwiML response. -/

inductive CallResult where
  | response (xml : String)
  | hostTypeError
  deriving DecidableEq

/-- The body of `incoming_call`, over the optional Host header and the
request URL string. -/
def incomingCall (host : Option String) (url : String) : CallResult :=
  match host with
  | none => CallResult.hostTypeError
  | some h =>
    let protocol : String :=
      if listContains "ngrok".data h.data || listContains "https".data url.data
      then "wss" else "ws"
    CallResult.response
      ("<?xml version=\"1.0\" encoding=\"UTF-8\"?>\n<Response>\n    <Connect>\n        <Stream url=\""
        ++ protocol ++ "://" ++ h ++ "/ws/twilio\" />\n    </Connect>\n</Response>")

/-! ## Update-event interrupt gate (`voice_session.py`, `on_stt_message`)

For a `TurnInfo` message with `event == "Update"`, the handler first
requires the transcript to be truthy (`elif event == "Update" and text`),
then checks `state == "speaking"`, then `len(text.strip()) >= 4`
(`_update_interrupt_min_chars`), and finally the barge-in latch and the
400 ms debounce before scheduling `_handle_interrupt`. -/

inductive SState where
  | idle
  | listening
  | processing
  | speaking
  deriving DecidableEq

/-- Whether an STT `Update(text)` event schedules the interrupt handler.
The debounce comparison `now - last >= 0.4` is a real-time test and enters
the model as the boolean `debounceOk`. -/
def onUpdateTriggers (st : SState) (text : String) (latched : Bool)
    (debounceOk : Bool) : Bool :=
  if text.data.isEmpty then false
  else if st = SState.speaking then
    if 4 ≤ (pyStrip text.data).length then !latched && debounceOk
    else false
  else false

/-- Number of non-whitespace characters of a text, as the claim's words
measure it (for comparison with the code's stripped-length test). -/
def countNonWs (cs : List Char) : Nat := (cs.filter (fun c => !isPyWs c)).length

/-! ## Session state machine (`voice_session.py`)

The session fields the claims are about: the state literal, the
monotonically increasing `_speak_epoch`, the `conversation_id` assigned on
first use, the `_tts_task` reference (modelled as the speak-epoch the
running `tts_runner` captured, `none` when the reference is `None`), and
the `_barge_in_latched` flag.  `VoiceSession.__init__` sets
`state = "idle"`, `_speak_epoch = 0`, `conversation_id = None`,
`_tts_task = None`, `_barge_in_latched = False`.

Handlers run to completion between suspension points under asyncio's
cooperative scheduling and each session is single-owner, so the machine's
events are the code's compound handler steps:

* `sessionOpen` — end of `__aenter__`: `state = "listening"`.
* `scheduleTurn` — `on_turn_end` plus the `_run_turn` prologue: a still
  running previous turn is cancelled and awaited (its `finally` clears
  `_tts_task`), then `state = "processing"`.
* `beginSpeaking cid` — the prologue of `process_llm_and_tts`: assign
  `conversation_id` if it is falsy, increment `_speak_epoch`, set
  `state = "speaking"`, clear the latch, and create the `tts_runner` task,
  which captures the just-incremented epoch.
* `ttsDone` — `await self._tts_task` finishes and the two `finally`
  blocks run: `_tts_task = None`, then `state = "listening"`.
* `turnAborted` — an exception before the TTS task was created;
  `_run_turn`'s `finally` sets `state = "listening"`.
* `interruptEv sid` — `_handle_interrupt`, modelled by
  `handleInterrupt` below.
* `latchReset` — the `EndOfTurn` branch clears `_barge_in_latched`.
* `ttsFrame c` — `on_tts_audio` receives an audio frame from a TTS
  stream that captured epoch `c`; it is forwarded to `send_audio` only if
  `c` equals the current `_speak_epoch`. -/

structure Sess where
  state : SState
  speakEpoch : Nat
  conversationId : Option String
  ttsTask : Option Nat
  bargeInLatched : Bool
  deriving DecidableEq

/-- The session as `VoiceSession.__init__` leaves it. -/
def initSess : Sess :=
  { state := SState.idle
    speakEpoch := 0
    conversationId := none
    ttsTask := none
    bargeInLatched := false }

/-- Effects `_handle_interrupt` performs, in program order. -/
inductive Eff where
  | incEpoch
  | clearSent (sid : String)
  | ttsCancelAwait
  | stateListening
  deriving DecidableEq

/-- The body of `_handle_interrupt` for a Twilio session with stream id
`sid`: return unchanged unless `state == "speaking"`; otherwise increment
the epoch, send `clear` (the subclass `clear_audio_buffer` sends
`{"event": "clear", "streamSid": sid}` — the object is rendered here as
the `Eff.clearSent sid` effect), cancel and await the TTS task when one is
referenced (swallowing `CancelledError`), and set `state = "listening"`.
The effect list records the order in which the four steps execute. -/
def handleInterrupt (sid : String) (s : Sess) : Sess × List Eff :=
  if s.state ≠ SState.speaking then (s, [])
  else
    let s1 := { s with speakEpoch := s.speakEpoch + 1 }
    let effs1 := [Eff.incEpoch]
    let effs2 := effs1 ++ [Eff.clearSent sid]
    let sAndEffs3 :=
      if s1.ttsTask.isSome then
        ({ s1 with ttsTask := none }, effs2 ++ [Eff.ttsCancelAwait])
      else (s1, effs2)
    ({ sAndEffs3.1 with state := SState.listening },
      sAndEffs3.2 ++ [Eff.stateListening])

/-- Handler-level events of a session. -/
inductive Ev where
  | sessionOpen
  | scheduleTurn
  | beginSpeaking (cid : String)
  | ttsDone
  | turnAborted
  | interruptEv (sid : String)
  | latchReset
  | ttsFrame (captured : Nat)
  deriving DecidableEq

/-- One handler step.  The second component lists the audio frames
forwarded to the transport during the step, each recorded as
`(captured epoch of the TTS stream, session epoch at the moment of
send)`. -/
def stepF (s : Sess) (e : Ev) : Sess × List (Nat × Nat) :=
  match e with
  | Ev.sessionOpen =>
    (if s.state = SState.idle then { s with state := SState.listening } else s, [])
  | Ev.scheduleTurn =>
    ({ s with state := SState.processing, ttsTask := none }, [])
  | Ev.beginSpeaking cid =>
    (if s.state = SState.processing then
      { s with
        conversationId :=
          if pyTruthy s.conversationId then s.conversationId else some cid
        speakEpoch := s.speakEpoch + 1
        state := SState.speaking
        bargeInLatched := false
        ttsTask := some (s.speakEpoch + 1) }
    else s, [])
  | Ev.ttsDone =>
    (if s.state = SState.speaking then
      { s with ttsTask := none, state := SState.listening }
    else s, [])
  | Ev.turnAborted =>
    (if s.state = SState.processing then { s with state := SState.listening }
    else s, [])
  | Ev.interruptEv sid => ((handleInterrupt sid s).1, [])
  | Ev.latchReset => ({ s with bargeInLatched := false }, [])
  | Ev.ttsFrame c =>
    (s, if c ≠ s.speakEpoch then [] else [(c, s.speakEpoch)])

/-- Run a sequence of handler steps, collecting every frame forwarded to
the transport. -/
def runEvents (s : Sess) : List Ev → Sess × List (Nat × Nat)
  | [] => (s, [])
  | e :: evs =>
    let s1 := stepF s e
    let rest := runEvents s1.1 evs
    (rest.1, s1.2 ++ rest.2)

/-! ## Sentence-chunked TTS driving (`voice_session.py`, `tts_runner`)

The turn loop accumulates LLM deltas into `sentence_buffer` and, after
each delta, repeatedly searches `re.search(r'[.!?]\s+|\n\n+', buffer)`;
while a match exists, the prefix up to `match.end()` is cut off and passed
to `send_to_tts`, which skips fragments whose `strip()` is empty and
otherwise removes `**bold**` and `*italic*` markers
(`re.sub(r'\*\*(.+?)\*\*', r'\1', ...)` then `re.sub(r'\*(.+?)\*', ...)`),
strips the result, and issues a text frame followed by a flush.  After the
stream ends, the remaining buffer is sent the same way when its `strip()`
is non-empty, the close sentinel is sent, and the reader task is awaited
(the await leaves no trace in the command sequence).

Python's regexes are modelled character-exactly on `List Char`; `.` does
not match a newline, `.+?` is lazy, `\s+` and `\n+` are greedy, `re.search`
returns the leftmost match trying the left alternative first, and `re.sub`
resumes scanning right after each replacement. -/

/-- Length of the maximal leading `\s` run (greedy `\s+`). -/
def wsRun : List Char → Nat
  | [] => 0
  | c :: cs => if isPyWs c then wsRun cs + 1 else 0

/-- Length of the maximal leading run of newlines (greedy `\n\n+`). -/
def nlRun : List Char → Nat
  | [] => 0
  | c :: cs => if c = '\n' then nlRun cs + 1 else 0

/-- Match length of `[.!?]\s+|\n\n+` anchored at the head of the list,
trying the alternatives in the pattern's order. -/
def matchAt : List Char → Option Nat
  | [] => none
  | c :: cs =>
    if c = '.' || c = '!' || c = '?' then
      if 1 ≤ wsRun cs then some (1 + wsRun cs) else none
    else if c = '\n' then
      match cs with
      | '\n' :: _ => some (nlRun (c :: cs))
      | _ => none
    else none

/-- Leftmost match of the sentence-boundary pattern: splits the buffer
into the prefix ending at `match.end()` and the rest, or `none` when
`re.search` finds nothing. -/
def findSplit : List Char → Option (List Char × List Char)
  | [] => none
  | c :: cs =>
    match matchAt (c :: cs) with
    | some len => some ((c :: cs).take len, (c :: cs).drop len)
    | none =>
      match findSplit cs with
      | some (a, b) => some (c :: a, b)
      | none => none

/-- Close search for `\*\*(.+?)\*\*` starting right after an opening
`**`: the lazily shortest non-empty newline-free group followed by `**`,
returning the group and the text after the match. -/
def findBoldClose : List Char → Option (List Char × List Char)
  | [] => none
  | c :: rest =>
    if c = '\n' then none
    else
      match rest with
      | '*' :: '*' :: tail => some ([c], tail)
      | _ =>
        match findBoldClose rest with
        | some (g, t) => some (c :: g, t)
        | none => none

/-- `re.sub(r'\*\*(.+?)\*\*', r'\1', s)` with explicit fuel; every step
consumes at least one input character, so fuel equal to the length
suffices. -/
def subBoldF : Nat → List Char → List Char
  | 0, cs => cs
  | _ + 1, [] => []
  | fuel + 1, '*' :: '*' :: rest =>
    (match findBoldClose rest with
    | some (g, t) => g ++ subBoldF fuel t
    | none => '*' :: subBoldF fuel ('*' :: rest))
  | fuel + 1, c :: rest => c :: subBoldF fuel rest

/-- Close search for `\*(.+?)\*` starting right after an opening `*`. -/
def findItalClose : List Char → Option (List Char × List Char)
  | [] => none
  | c :: rest =>
    if c = '\n' then none
    else
      match rest with
      | '*' :: tail => some ([c], tail)
      | _ =>
        match findItalClose rest with
        | some (g, t) => some (c :: g, t)
        | none => none

/-- `re.sub(r'\*(.+?)\*', r'\1', s)` with explicit fuel. -/
def subItalicF : Nat → List Char → List Char
  | 0, cs => cs
  | _ + 1, [] => []
  | fuel + 1, '*' :: rest =>
    (match findItalClose rest with
    | some (g, t) => g ++ subItalicF fuel t
    | none => '*' :: subItalicF fuel rest)
  | fuel + 1, c :: rest => c :: subItalicF fuel rest

/-- The cleaning block of `send_to_tts`: strip bold, strip italic, then
`strip()` the result. -/
def cleanText (cs : List Char) : List Char :=
  pyStrip (subItalicF (subBoldF cs.length cs).length (subBoldF cs.length cs))

/-- Frames the turn sends to the TTS connection. -/
inductive Cmd where
  | sendText (text : List Char)
  | flush
  | close
  deriving DecidableEq

/-- The commands the claim's words prescribe for one fragment: markdown
stripped, the fragment sent, then a flush — with no skip for
whitespace-only fragments. -/
def sendSpec (cs : List Char) : List Cmd :=
  [Cmd.sendText (cleanText cs), Cmd.flush]

/-- `send_to_tts`: return without sending when `text.strip()` is falsy,
otherwise send the cleaned text and a flush. -/
def sendToTTS (cs : List Char) : List Cmd :=
  if (pyStrip cs).isEmpty then [] else [Cmd.sendText (cleanText cs), Cmd.flush]

/-- The inner `while True` of the turn loop, emitting `send_to_tts`
commands for each extracted prefix; fuel equal to the buffer length
suffices because every extracted prefix is non-empty. -/
def drainEmitF : Nat → List Char → List Cmd × List Char
  | 0, cs => ([], cs)
  | fuel + 1, cs =>
    match findSplit cs with
    | none => ([], cs)
    | some (a, b) =>
      let rest := drainEmitF fuel b
      (sendToTTS a ++ rest.1, rest.2)

/-- The same drain loop, recording the extracted fragments instead of the
emitted commands. -/
def drainFragsF : Nat → List Char → List (List Char) × List Char
  | 0, cs => ([], cs)
  | fuel + 1, cs =>
    match findSplit cs with
    | none => ([], cs)
    | some (a, b) =>
      let rest := drainFragsF fuel b
      (a :: rest.1, rest.2)

/-- Appending one LLM delta to the buffer and draining it (command
form). -/
def stepChunkEmit (acc : List Cmd × List Char) (delta : String) :
    List Cmd × List Char :=
  let buf := acc.2 ++ delta.data
  let d := drainEmitF buf.length buf
  (acc.1 ++ d.1, d.2)

/-- Appending one LLM delta to the buffer and draining it (fragment
form). -/
def stepChunkFrags (acc : List (List Char) × List Char) (delta : String) :
    List (List Char) × List Char :=
  let buf := acc.2 ++ delta.data
  let d := drainFragsF buf.length buf
  (acc.1 ++ d.1, d.2)

/-- All boundary-delimited fragments of a delta stream, in order, with the
final leftover buffer. -/
def turnFrags (deltas : List String) : List (List Char) × List Char :=
  deltas.foldl stepChunkFrags ([], [])

/-- The command sequence `tts_runner` sends for a turn whose LLM stream
yields `deltas`: drain after every delta, send the leftover buffer when
its `strip()` is non-empty, then the close sentinel. -/
def ttsRunner (deltas : List String) : List Cmd :=
  let r := deltas.foldl stepChunkEmit ([], [])
  r.1 ++ (if (pyStrip r.2).isEmpty then [] else sendToTTS r.2) ++ [Cmd.close]

/-- The command sequence the claim's words prescribe: every fragment is
sent and flushed, any remaining buffered text is sent and flushed, then
close. -/
def ttsRunnerSpec (deltas : List String) : List Cmd :=
  let r := turnFrags deltas
  (r.1.map sendSpec).flatten ++ (if r.2.isEmpty then [] else sendSpec r.2)
    ++ [Cmd.close]

/-- The claim amended by the skip rule the code applies: a fragment, and
the final remainder, whose `strip()` is empty is discarded without a send
or a flush. -/
def ttsRunnerSpecAmended (deltas : List String) : List Cmd :=
  let r := turnFrags deltas
  (r.1.map sendToTTS).flatten
    ++ (if (pyStrip r.2).isEmpty then [] else sendSpec r.2) ++ [Cmd.close]

/-! ## Telephony bridge (`voice_ws.py`, `twilio_websocket` and
`TwilioVoiceSession`)

After `websocket.accept()`, the first loop reads messages and breaks only
when one with `event == "start"` arrives; every earlier message is
skipped.  Only then is the session constructed.  `on_start` stores the
`streamSid` and synthesizes a fixed greeting whose audio frames are
forwarded to `send_audio` unconditionally; afterwards the main loop
decodes each `media` payload (μ-law → PCM) and feeds it to STT, and turn
replies are forwarded as further `media` envelopes.  The external STT and
TTS services enter the model as oracles. -/

inductive TwIn where
  | startEnv (sid : String)
  | mediaEnv (payload : List Nat)
  | stopEnv
  | otherEnv (ev : String)
  deriving DecidableEq

/-- Whether an inbound envelope has `event == "start"`. -/
def isStartEnv : TwIn → Bool
  | TwIn.startEnv _ => true
  | _ => false

/-- The wait-for-start loop: skip messages until the first `start`
envelope, returning its `streamSid` and the messages still to be read by
the session loop; `none` when the stream ends with no `start`. -/
def waitForStart : List TwIn → Option (String × List TwIn)
  | [] => none
  | TwIn.startEnv sid :: rest => some (sid, rest)
  | _ :: rest => waitForStart rest

/-- The `media` payloads the session loop forwards to STT, in order,
stopping at the first `stop` envelope. -/
def collectMedia : List TwIn → List (List Nat)
  | [] => []
  | TwIn.stopEnv :: _ => []
  | TwIn.mediaEnv p :: rest => p :: collectMedia rest
  | _ :: rest => collectMedia rest

/-- μ-law decode of a payload, sample by sample (`_mulaw_decode`; the
subsequent resampling is a linear filter and maps the all-zero signal to
the all-zero signal, so silence is judged on the decoded samples). -/
def decodePayload (p : List Nat) : List Int := p.map mulawDecode

/-- A payload is silent when every decoded PCM sample is zero. -/
def decodedSilent (p : List Nat) : Bool :=
  (decodePayload p).all (fun x => x == 0)

/-- Behaviour of the external services during one call: the audio frames
TTS produces for the greeting, the `EndOfTurn` transcripts STT produces
for the decoded inbound audio, and the audio frames a turn's reply
produces for a transcript. -/
structure Oracles where
  greetingFrames : List (List Int)
  sttTranscripts : List (List Int) → List String
  replyFrames : String → List (List Int)

/-- Outbound messages of the bridge. -/
inductive OutMsg where
  | mediaOut (sid : String) (pcm : List Int)
  | clearOut (sid : String)
  deriving DecidableEq

/-- Outbound messages produced for one inbound message sequence: nothing
before a `start` envelope; then one `media` envelope per greeting frame
(`_send_greeting` forwards every frame through `send_audio`), and one per
reply frame of each turn scheduled by an STT `EndOfTurn`. -/
def bridgeRun (o : Oracles) (msgs : List TwIn) : List OutMsg :=
  match waitForStart msgs with
  | none => []
  | some (sid, rest) =>
    let greetingOut := o.greetingFrames.map (OutMsg.mediaOut sid)
    let transcripts := o.sttTranscripts ((collectMedia rest).map decodePayload)
    greetingOut ++
      (transcripts.map (fun t => (o.replyFrames t).map (OutMsg.mediaOut sid))).flatten

/-- A concrete environment in which TTS produces a single greeting frame
and STT never reports a turn. -/
def greetOnlyOracle : Oracles :=
  { greetingFrames := [[0]]
    sttTranscripts := fun _ => []
    replyFrames := fun _ => [] }

/-! ## Theorems -/

/-- C7: the claim states the G.711 contract `decode(encode(pcm)) ≈ pcm`
within quantization error, and the code breaks it: the encoder biases by
33 where G.711's encoder biases by 0x84 = 132, while the decoder follows
the standard 0x84 reconstruction, so the pair is inconsistent.  A zero
sample round-trips to 32 and the sample 95 round-trips to 0, errors far
beyond the first μ-law segment's quantization error of at most 4 — the
code contradicts its own G.711 docstrings, so this is a code bug. -/
theorem C7_mulaw_roundtrip_bug :
    mulawRoundtrip 0 = 32 ∧ mulawRoundtrip 95 = 0 ∧ mulawRoundtrip (-1) = -32 := by
  decide

/-- C10: the incoming-call webhook requires a Host header: without one the
handler evaluates `"ngrok" in None` and raises `TypeError`; with one it
always returns the TwiML response. -/
theorem C10_host_header_required :
    (∀ url, incomingCall none url = CallResult.hostTypeError) ∧
    (∀ h url, ∃ xml, incomingCall (some h) url = CallResult.response xml) :=
  ⟨fun _ => rfl, fun _ _ => ⟨_, rfl⟩⟩

/-- C6 counterexample: the code gates the Update interrupt on
`len(text.strip()) >= 4`, not on the number of non-whitespace characters.
The text `"a  b"` strips to itself (length 4) and so triggers interrupt
consideration in state `speaking` with the latch clear and the debounce
elapsed, yet it has only two non-whitespace characters — the claim as
stated says such an Update never triggers. -/
theorem C6_counterexample :
    onUpdateTriggers SState.speaking "a  b" false true = true ∧
    countNonWs "a  b".data < 4 := by
  decide

/-- C6 amended: while the state is `speaking`, an STT Update triggers
interrupt consideration exactly when its text has at least 4 characters
after stripping leading and trailing whitespace (and the latch is clear
and the debounce has elapsed); in any other state, or below that stripped
length, it never triggers. -/
theorem C6_update_interrupt_gate (st : SState) (text : String)
    (latched debounceOk : Bool) :
    onUpdateTriggers st text latched debounceOk = true ↔
      (st = SState.speaking ∧ 4 ≤ (pyStrip text.data).length ∧
        latched = false ∧ debounceOk = true) := by
  unfold onUpdateTriggers
  split_ifs with h1 h2 h3
  · simp only [List.isEmpty_iff] at h1
    simp [h1, pyStrip]
  · simp [h2, h3, Bool.and_eq_true, Bool.not_eq_true']
  · simp [h2, h3]
  · simp [h2]

/-- C8 counterexample: the bridge does not reject a session whose first
message is not a `start` envelope — the wait loop skips such messages.
Here the first message is a `media` envelope and the session is
nevertheless created from the following `start`. -/
theorem C8_counterexample :
    isStartEnv (TwIn.mediaEnv []) = false ∧
    waitForStart [TwIn.mediaEnv [], TwIn.startEnv "MZ1"] = some ("MZ1", []) :=
  ⟨rfl, rfl⟩

/-- C8 amended: after accept the bridge waits for the `start` envelope
before creating a session, skipping (not rejecting) any earlier non-start
messages: no session is created exactly when no `start` envelope ever
arrives, and otherwise the session is created from the first `start`
envelope, every message before it being a non-start one. -/
theorem C8_wait_for_start (msgs : List TwIn) :
    (waitForStart msgs = none ↔ ∀ m ∈ msgs, isStartEnv m = false) ∧
    (∀ sid rest, waitForStart msgs = some (sid, rest) →
      ∃ pre, msgs = pre ++ TwIn.startEnv sid :: rest ∧
        ∀ m ∈ pre, isStartEnv m = false) := by
  induction msgs with
  | nil => simp [waitForStart]
  | cons m t ih =>
    cases m with
    | startEnv sid =>
      refine ⟨by simp [waitForStart, isStartEnv], ?_⟩
      intro sid2 rest h
      simp only [waitForStart, Option.some.injEq, Prod.mk.injEq] at h
      exact ⟨[], by simp [h.1, h.2]⟩
    | mediaEnv p =>
      refine ⟨by simpa [waitForStart, isStartEnv] using ih.1, ?_⟩
      intro sid rest h
      obtain ⟨pre, hpre, hall⟩ := ih.2 sid rest h
      exact ⟨TwIn.mediaEnv p :: pre, by simp [hpre], by
        intro x hx
        rcases List.mem_cons.mp hx with hx | hx
        · simp [hx, isStartEnv]
        · exact hall x hx⟩
    | stopEnv =>
      refine ⟨by simpa [waitForStart, isStartEnv] using ih.1, ?_⟩
      intro sid rest h
      obtain ⟨pre, hpre, hall⟩ := ih.2 sid rest h
      exact ⟨TwIn.stopEnv :: pre, by simp [hpre], by
        intro x hx
        rcases List.mem_cons.mp hx with hx | hx
        · simp [hx, isStartEnv]
        · exact hall x hx⟩
    | otherEnv e =>
      refine ⟨by simpa [waitForStart, isStartEnv] using ih.1, ?_⟩
      intro sid rest h
      obtain ⟨pre, hpre, hall⟩ := ih.2 sid rest h
      exact ⟨TwIn.otherEnv e :: pre, by simp [hpre], by
        intro x hx
        rcases List.mem_cons.mp hx with hx | hx
        · simp [hx, isStartEnv]
        · exact hall x hx⟩

/-- C8 witness: the amended theorem applied to a concrete message list in
which a non-start message precedes the `start` envelope. -/
theorem C8_wait_for_start_witness :
    ∃ pre, [TwIn.otherEnv "connected", TwIn.startEnv "MZ1"] =
        pre ++ TwIn.startEnv "MZ1" :: ([] : List TwIn) ∧
      ∀ m ∈ pre, isStartEnv m = false :=
  (C8_wait_for_start [TwIn.otherEnv "connected", TwIn.startEnv "MZ1"]).2
    "MZ1" [] rfl

/-- Every payload the session loop forwards came from a `media` envelope
of the inbound sequence. -/
lemma collectMedia_mem {p : List Nat} :
    ∀ {msgs : List TwIn}, p ∈ collectMedia msgs → TwIn.mediaEnv p ∈ msgs := by
  intro msgs
  induction msgs with
  | nil => simp [collectMedia]
  | cons m t ih =>
    cases m with
    | startEnv sid =>
      simp only [collectMedia]
      intro h
      exact List.mem_cons_of_mem _ (ih h)
    | mediaEnv q =>
      intro h
      rcases List.mem_cons.mp h with h | h
      · simp [h]
      · exact List.mem_cons_of_mem _ (ih h)
    | stopEnv => simp [collectMedia]
    | otherEnv e =>
      simp only [collectMedia]
      intro h
      exact List.mem_cons_of_mem _ (ih h)

/-- C9 counterexample: in an environment where TTS yields one frame for
the greeting and STT reports nothing, a call whose only inbound media is
silent (the μ-law byte 0xFF decodes to PCM 0) still produces an outbound
`media` envelope — the greeting that `on_start` synthesizes — so the
claim that no outbound `media` envelope is produced is false. -/
theorem C9_counterexample :
    bridgeRun greetOnlyOracle [TwIn.startEnv "MZ2", TwIn.mediaEnv [255]] =
      [OutMsg.mediaOut "MZ2" [0]] ∧
    bridgeRun greetOnlyOracle [TwIn.startEnv "MZ2", TwIn.mediaEnv [255]] ≠ [] := by
  exact ⟨rfl, by decide⟩

/-- C9 amended: for a `start` envelope followed by inbound `media`
envelopes whose decoded PCM is entirely silent, the session sends no
outbound `media` envelopes beyond the ones carrying the greeting that
`on_start` synthesizes, provided STT reports no turn for all-zero audio. -/
theorem C9_silence_greeting_only (o : Oracles) (sid : String)
    (medias : List TwIn)
    (hstt : ∀ frames, (∀ f ∈ frames, ∀ x ∈ f, x = (0 : Int)) →
      o.sttTranscripts frames = [])
    (hsilent : ∀ p, TwIn.mediaEnv p ∈ medias → decodedSilent p = true) :
    bridgeRun o (TwIn.startEnv sid :: medias) =
      o.greetingFrames.map (OutMsg.mediaOut sid) := by
  have hnone : o.sttTranscripts ((collectMedia medias).map decodePayload) = [] := by
    apply hstt
    intro f hf x hx
    obtain ⟨p, hp, rfl⟩ := List.mem_map.mp hf
    have hs := hsilent p (collectMedia_mem hp)
    simp only [decodedSilent, List.all_eq_true, beq_iff_eq] at hs
    exact hs x hx
  simp [bridgeRun, waitForStart, hnone]

/-- C9 witness: the amended theorem applied to the single-frame silent
call in the greeting-only environment. -/
theorem C9_silence_greeting_only_witness :
    bridgeRun greetOnlyOracle (TwIn.startEnv "MZ3" :: [TwIn.mediaEnv [255]]) =
      greetOnlyOracle.greetingFrames.map (OutMsg.mediaOut "MZ3") :=
  C9_silence_greeting_only greetOnlyOracle "MZ3" [TwIn.mediaEnv [255]]
    (fun _ _ => rfl)
    (by intro p hp; simp at hp; subst hp; decide)

/-- Every frame a single handler step forwards was sent at the epoch it
captured. -/
lemma stepF_frames_epoch (s : Sess) (e : Ev) (p : Nat × Nat)
    (hp : p ∈ (stepF s e).2) : p.1 = p.2 := by
  cases e with
  | ttsFrame c =>
    simp only [stepF] at hp
    split at hp
    · simp at hp
    · next h =>
      have hc : c = s.speakEpoch := not_not.mp h
      simp only [List.mem_singleton] at hp
      rw [hp, hc]
  | sessionOpen => simp [stepF] at hp
  | scheduleTurn => simp [stepF] at hp
  | beginSpeaking cid => simp [stepF] at hp
  | ttsDone => simp [stepF] at hp
  | turnAborted => simp [stepF] at hp
  | interruptEv sid => simp [stepF] at hp
  | latchReset => simp [stepF] at hp

/-- Every frame a run forwards was sent at the epoch it captured. -/
lemma runEvents_frames_epoch (evs : List Ev) (s : Sess) (p : Nat × Nat)
    (hp : p ∈ (runEvents s evs).2) : p.1 = p.2 := by
  induction evs generalizing s with
  | nil => simp [runEvents] at hp
  | cons e evs ih =>
    simp only [runEvents, List.mem_append] at hp
    rcases hp with hp | hp
    · exact stepF_frames_epoch s e p hp
    · exact ih _ hp

/-- C1: the TTS audio handler drops any frame whose captured epoch
differs from the session's current speak-epoch and forwards a frame only
when the two coincide, so along every run from the initial session every
frame forwarded to the bridge carries exactly the speak-epoch current at
the moment of send. -/
theorem C1_no_stale_audio :
    (∀ (s : Sess) (c : Nat), (stepF s (Ev.ttsFrame c)).2 =
      if c = s.speakEpoch then [(c, s.speakEpoch)] else []) ∧
    (∀ (evs : List Ev) (p : Nat × Nat),
      p ∈ (runEvents initSess evs).2 → p.1 = p.2) := by
  constructor
  · intro s c
    by_cases h : c = s.speakEpoch <;> simp [stepF, h]
  · intro evs p hp
    exact runEvents_frames_epoch evs initSess p hp

/-- C1 witness: along the run that immediately delivers a frame captured
at the initial epoch, the forwarded frame's captured epoch equals the
epoch at send. -/
theorem C1_no_stale_audio_witness :
    ((0, 0) : Nat × Nat).1 = ((0, 0) : Nat × Nat).2 :=
  C1_no_stale_audio.2 [Ev.ttsFrame 0] (0, 0) (by decide)

/-- C2: when the state is `speaking`, `_handle_interrupt` performs, in
this order: epoch increment, `clear` to the transport, cancel-and-await
of the TTS task when one is referenced, and the transition to
`listening`; in any other state it does nothing. -/
theorem C2_interrupt_action_order (sid : String) (s : Sess) :
    (s.state = SState.speaking →
      handleInterrupt sid s =
        ({ s with speakEpoch := s.speakEpoch + 1, ttsTask := none,
                  state := SState.listening },
         Eff.incEpoch :: Eff.clearSent sid ::
           ((if s.ttsTask.isSome then [Eff.ttsCancelAwait] else [])
             ++ [Eff.stateListening]))) ∧
    (s.state ≠ SState.speaking → handleInterrupt sid s = (s, [])) := by
  constructor
  · intro h
    obtain ⟨st, ep, cid, tt, bl⟩ := s
    cases tt <;> simp_all [handleInterrupt]
  · intro h
    simp [handleInterrupt, h]

/-- C2 witness: the theorem applied to a concrete speaking session with a
running TTS task, showing all four effects in order. -/
theorem C2_interrupt_action_order_witness :
    handleInterrupt "MZ4" ⟨SState.speaking, 3, some "conv", some 3, true⟩ =
      (⟨SState.listening, 4, some "conv", none, true⟩,
       [Eff.incEpoch, Eff.clearSent "MZ4", Eff.ttsCancelAwait,
        Eff.stateListening]) := by
  simpa using
    (C2_interrupt_action_order "MZ4"
      ⟨SState.speaking, 3, some "conv", some 3, true⟩).1 rfl

/-- A non-empty string is truthy. -/
lemma pyTruthy_some {c : String} (hne : c ≠ "") : pyTruthy (some c) = true := by
  cases hb : c.isEmpty
  · simp [pyTruthy, hb]
  · exact absurd ((String.isEmpty_iff c).mp hb) hne

/-- No handler step overwrites a truthy conversation id. -/
lemma stepF_conv_preserved (s : Sess) (e : Ev) (c : String)
    (hc : s.conversationId = some c) (hne : c ≠ "") :
    (stepF s e).1.conversationId = some c := by
  have htr := pyTruthy_some hne
  obtain ⟨st, ep, cid, tt, bl⟩ := s
  simp only at hc
  subst hc
  cases e <;> cases tt <;> cases st <;>
    simp_all [stepF, handleInterrupt]

/-- No run overwrites a truthy conversation id. -/
lemma runEvents_conv_preserved (evs : List Ev) (s : Sess) (c : String)
    (hc : s.conversationId = some c) (hne : c ≠ "") :
    (runEvents s evs).1.conversationId = some c := by
  induction evs generalizing s with
  | nil => simpa [runEvents] using hc
  | cons e evs ih =>
    simp only [runEvents]
    exact ih _ (stepF_conv_preserved s e c hc hne)

/-- C4: a turn that begins with no conversation identifier stored (the
code's `if not self.conversation_id` test) stores the identifier returned
by `create_conversation()`, and once a (non-empty) identifier is stored no
operation of the session ever changes it. -/
theorem C4_conversation_id_stable :
    (∀ (s : Sess) (cid : String), s.state = SState.processing →
      pyTruthy s.conversationId = false →
      (stepF s (Ev.beginSpeaking cid)).1.conversationId = some cid) ∧
    (∀ (s : Sess) (evs : List Ev) (c : String), s.conversationId = some c →
      c ≠ "" → (runEvents s evs).1.conversationId = some c) := by
  constructor
  · intro s cid hst htr
    simp [stepF, hst, htr]
  · intro s evs c hc hne
    exact runEvents_conv_preserved evs s c hc hne

/-- C4 witness: the theorem applied to a first turn that stores the fresh
identifier, and to a later run (a second full turn) that preserves it. -/
theorem C4_conversation_id_stable_witness :
    (stepF ⟨SState.processing, 0, none, none, false⟩
      (Ev.beginSpeaking "conv1")).1.conversationId = some "conv1" ∧
    (runEvents ⟨SState.listening, 1, some "conv1", none, false⟩
      [Ev.scheduleTurn, Ev.beginSpeaking "conv2",
        Ev.ttsDone]).1.conversationId = some "conv1" :=
  ⟨C4_conversation_id_stable.1 _ "conv1" rfl rfl,
   C4_conversation_id_stable.2 _ _ "conv1" rfl (by decide)⟩

/-- One handler step preserves the TTS-task/state coupling. -/
lemma stepF_tts_inv (s : Sess) (e : Ev)
    (h : s.ttsTask.isSome = true ↔ s.state = SState.speaking) :
    (stepF s e).1.ttsTask.isSome = true ↔
      (stepF s e).1.state = SState.speaking := by
  obtain ⟨st, ep, cid, tt, bl⟩ := s
  cases e <;> cases tt <;> cases st <;>
    simp_all [stepF, handleInterrupt]

/-- Every run from a state satisfying the coupling ends in a state
satisfying it. -/
lemma runEvents_tts_inv (evs : List Ev) (s : Sess)
    (h : s.ttsTask.isSome = true ↔ s.state = SState.speaking) :
    (runEvents s evs).1.ttsTask.isSome = true ↔
      (runEvents s evs).1.state = SState.speaking := by
  induction evs generalizing s with
  | nil => simpa [runEvents] using h
  | cons e evs ih =>
    simp only [runEvents]
    exact ih _ (stepF_tts_inv s e h)

/-- C5: in every state reachable from the initial session, `speaking`
implies the TTS-task reference is non-null and `listening` implies it is
null. -/
theorem C5_state_tts_invariant (evs : List Ev) :
    ((runEvents initSess evs).1.state = SState.speaking →
      (runEvents initSess evs).1.ttsTask ≠ none) ∧
    ((runEvents initSess evs).1.state = SState.listening →
      (runEvents initSess evs).1.ttsTask = none) := by
  have h := runEvents_tts_inv evs initSess (by simp [initSess])
  constructor
  · intro hs hn
    have := h.mpr hs
    rw [hn] at this
    simp at this
  · intro hs
    cases ho : (runEvents initSess evs).1.ttsTask with
    | none => rfl
    | some k =>
      have hsp : (runEvents initSess evs).1.state = SState.speaking :=
        h.mp (by simp [ho])
      exact absurd (hs.symm.trans hsp) (by decide)

/-- C5 witness: the theorem applied to a full first turn, whose final
state is `listening` with no TTS task referenced. -/
theorem C5_state_tts_invariant_witness :
    (runEvents initSess [Ev.sessionOpen, Ev.scheduleTurn,
      Ev.beginSpeaking "conv3", Ev.ttsDone]).1.ttsTask = none :=
  (C5_state_tts_invariant _).2 (by decide)

/-- The command-emitting drain loop sends exactly the `send_to_tts`
commands of the fragments the drain extracts, in order. -/
lemma drainEmitF_eq_frags (fuel : Nat) (cs : List Char) :
    drainEmitF fuel cs =
      (((drainFragsF fuel cs).1.map sendToTTS).flatten,
        (drainFragsF fuel cs).2) := by
  induction fuel generalizing cs with
  | zero => simp [drainEmitF, drainFragsF]
  | succ n ih =>
    simp only [drainEmitF, drainFragsF]
    cases h : findSplit cs with
    | none => simp
    | some ab =>
      obtain ⟨a, b⟩ := ab
      simp [ih b]

/-- Folding the per-delta drain over the stream, in command form, equals
the fragment form mapped through `send_to_tts`. -/
lemma foldChunks_eq (deltas : List String) (fr : List (List Char))
    (buf : List Char) :
    deltas.foldl stepChunkEmit ((fr.map sendToTTS).flatten, buf) =
      (((deltas.foldl stepChunkFrags (fr, buf)).1.map sendToTTS).flatten,
        (deltas.foldl stepChunkFrags (fr, buf)).2) := by
  induction deltas generalizing fr buf with
  | nil => simp
  | cons d ds ih =>
    simp only [List.foldl_cons]
    have h1 : stepChunkEmit ((fr.map sendToTTS).flatten, buf) d =
        (((fr ++ (drainFragsF (buf ++ d.data).length
            (buf ++ d.data)).1).map sendToTTS).flatten,
          (drainFragsF (buf ++ d.data).length (buf ++ d.data)).2) := by
      simp [stepChunkEmit, drainEmitF_eq_frags]
    have h2 : stepChunkFrags (fr, buf) d =
        (fr ++ (drainFragsF (buf ++ d.data).length (buf ++ d.data)).1,
          (drainFragsF (buf ++ d.data).length (buf ++ d.data)).2) := by
      simp [stepChunkFrags]
    rw [h1, h2]
    exact ih _ _

/-- C3 counterexample: the claim as stated sends every boundary-matched
fragment followed by a flush, but `send_to_tts` silently skips fragments
whose `strip()` is empty.  The single delta consisting of two newlines is
a boundary match (`\n\n+`), yet the code sends nothing for it — the turn
emits only the close sentinel, while the claim's reading also emits a
text frame and a flush. -/
theorem C3_counterexample :
    ttsRunner ["\n\n"] = [Cmd.close] ∧
    ttsRunnerSpec ["\n\n"] = [Cmd.sendText [], Cmd.flush, Cmd.close] ∧
    ttsRunner ["\n\n"] ≠ ttsRunnerSpec ["\n\n"] := by
  decide

/-- C3 amended: during every turn, deltas accumulate in the sentence
buffer; whenever the buffer contains a match of `[.!?]\s+` or `\n\n+`,
the prefix up to the end of the first match is removed, and — unless the
fragment strips to nothing, in which case it is discarded without a send
or a flush — its bold and italic markers are stripped and the fragment is
sent followed by a flush; after the stream ends the remaining buffered
text is likewise sent and flushed only when it strips to something
non-empty, and then the close sentinel ends the command sequence. -/
theorem C3_sentence_chunking (deltas : List String) :
    ttsRunner deltas = ttsRunnerSpecAmended deltas := by
  have h := foldChunks_eq deltas [] []
  simp only [List.map_nil, List.flatten_nil] at h
  simp only [ttsRunner, ttsRunnerSpecAmended, turnFrags, h]
  cases hemp : (pyStrip (deltas.foldl stepChunkFrags ([], [])).2).isEmpty
  · simp [hemp, sendToTTS, sendSpec]
  · simp [hemp]

end VoiceAI
